import Mathlib

/-!
Verification of the market_scanner repository's level-filter engine and
fakeout detector against its natural-language specification.

The embedding translates the Python source (src/level_filter.py,
src/fakeout_detector.py, src/market_scanner/telegram_notifier.py) into
executable Lean definitions.  Prices are modelled as rationals, database
rows as lists.  A list of levels is always in the order produced by
`get_levels`: ascending by timestamp (oldest first), as the SQL
`ORDER BY timestamp ASC` guarantees.  Level ids are produced by a
`SERIAL PRIMARY KEY` column, so hypotheses that the ids of a level list
are pairwise distinct are faithful to the store.
-/

/-- One row of the `high_levels` or `low_levels` table as returned by
`LevelFilter.get_levels`: `(id, level, timestamp)` for a fixed
(symbol, timeframe). -/
structure Level where
  id : Nat
  level : ℚ
  timestamp : Nat
deriving Repr, DecidableEq

/-- The loop body of `LevelFilter.filter_highs` over the older levels
(`levels_reversed[1:]`, newest first): collect the id of each level whose
value strictly exceeds the running maximum `max_kept` of kept values, and
update the maximum when keeping. -/
def keepHighAux (max_kept : ℚ) : List Level → List Nat
  | [] => []
  | l :: ls =>
    if l.level > max_kept then l.id :: keepHighAux l.level ls
    else keepHighAux max_kept ls

/-- The loop body of `LevelFilter.filter_lows` over the older levels:
collect the id of each level whose value is strictly below the running
minimum `min_kept` of kept values. -/
def keepLowAux (min_kept : ℚ) : List Level → List Nat
  | [] => []
  | l :: ls =>
    if l.level < min_kept then l.id :: keepLowAux l.level ls
    else keepLowAux min_kept ls

/-- The `keep_ids` list built by `filter_highs`: the most recent level's id
followed by the ids kept by the backward scan over the older levels.
Empty input gives an empty id list (the code returns before building it). -/
def high_keep_ids (levels : List Level) : List Nat :=
  match levels.reverse with
  | [] => []
  | most_recent :: older => most_recent.id :: keepHighAux most_recent.level older

/-- The `keep_ids` list built by `filter_lows`. -/
def low_keep_ids (levels : List Level) : List Nat :=
  match levels.reverse with
  | [] => []
  | most_recent :: older => most_recent.id :: keepLowAux most_recent.level older

/-- `LevelFilter.filter_highs` for one (symbol, timeframe): from the levels
ordered ascending by timestamp it returns `(kept_count, deleted_count)`
together with the table contents after the call.  The SQL
`DELETE ... WHERE id NOT IN keep_ids` runs only when `deleted_count > 0`,
exactly as in the source, and keeps the rows whose id is in `keep_ids`. -/
def filter_highs (levels : List Level) : Nat × Nat × List Level :=
  if levels = [] then (0, 0, levels)
  else
    ((high_keep_ids levels).length,
     levels.length - (high_keep_ids levels).length,
     if 0 < levels.length - (high_keep_ids levels).length then
       levels.filter (fun l => (high_keep_ids levels).contains l.id)
     else levels)

/-- `LevelFilter.filter_lows`, symmetric to `filter_highs`. -/
def filter_lows (levels : List Level) : Nat × Nat × List Level :=
  if levels = [] then (0, 0, levels)
  else
    ((low_keep_ids levels).length,
     levels.length - (low_keep_ids levels).length,
     if 0 < levels.length - (low_keep_ids levels).length then
       levels.filter (fun l => (low_keep_ids levels).contains l.id)
     else levels)

/-- The kept levels themselves (not just their ids) of the backward scan of
`filter_highs`; used to relate the id bookkeeping to the surviving rows. -/
def keptHighAux (max_kept : ℚ) : List Level → List Level
  | [] => []
  | l :: ls =>
    if l.level > max_kept then l :: keptHighAux l.level ls
    else keptHighAux max_kept ls

/-- The kept levels of the backward scan of `filter_lows`. -/
def keptLowAux (min_kept : ℚ) : List Level → List Level
  | [] => []
  | l :: ls =>
    if l.level < min_kept then l :: keptLowAux l.level ls
    else keptLowAux min_kept ls

/-- Transcription of the specification's wording of the backward monotonic
reduction for type=high, on values, scanning most-recent first: keep a
value iff it is strictly greater than the running maximum of kept values,
updating the maximum on keep.  Stated separately from the code embedding so
that the code can be proved to refine the spec's words. -/
def spec_reduce_high (max_kept : ℚ) : List ℚ → List ℚ
  | [] => []
  | v :: vs =>
    if v > max_kept then v :: spec_reduce_high v vs
    else spec_reduce_high max_kept vs

/-- Transcription of the specification's backward monotonic reduction for
type=low: keep iff strictly below the running minimum of kept values. -/
def spec_reduce_low (min_kept : ℚ) : List ℚ → List ℚ
  | [] => []
  | v :: vs =>
    if v < min_kept then v :: spec_reduce_low v vs
    else spec_reduce_low min_kept vs

/-- Concrete level list for the spec's high example, values
`[3,9,4,7,2,3,6,2,4]` oldest to newest. -/
def exampleHighs : List Level :=
  [⟨1, 3, 1⟩, ⟨2, 9, 2⟩, ⟨3, 4, 3⟩, ⟨4, 7, 4⟩, ⟨5, 2, 5⟩,
   ⟨6, 3, 6⟩, ⟨7, 6, 7⟩, ⟨8, 2, 8⟩, ⟨9, 4, 9⟩]

/-- Concrete level list for the spec's low example, values
`[9,3,6,4,8,7,5,8,6]` oldest to newest. -/
def exampleLows : List Level :=
  [⟨1, 9, 1⟩, ⟨2, 3, 2⟩, ⟨3, 6, 3⟩, ⟨4, 4, 4⟩, ⟨5, 8, 5⟩,
   ⟨6, 7, 6⟩, ⟨7, 5, 7⟩, ⟨8, 8, 8⟩, ⟨9, 6, 9⟩]

-- Structural lemmas about the backward scans.

theorem keepHighAux_eq_map (m : ℚ) (ls : List Level) :
    keepHighAux m ls = (keptHighAux m ls).map Level.id := by
  induction ls generalizing m with
  | nil => rfl
  | cons l ls ih => by_cases h : l.level > m <;> simp [keepHighAux, keptHighAux, h, ih]

theorem keepLowAux_eq_map (m : ℚ) (ls : List Level) :
    keepLowAux m ls = (keptLowAux m ls).map Level.id := by
  induction ls generalizing m with
  | nil => rfl
  | cons l ls ih => by_cases h : l.level < m <;> simp [keepLowAux, keptLowAux, h, ih]

theorem keptHighAux_sublist (m : ℚ) (ls : List Level) :
    List.Sublist (keptHighAux m ls) ls := by
  induction ls generalizing m with
  | nil => simp [keptHighAux]
  | cons l ls ih =>
    by_cases h : l.level > m
    · simp only [keptHighAux, if_pos h]
      exact List.Sublist.cons₂ l (ih l.level)
    · simp only [keptHighAux, if_neg h]
      exact List.Sublist.cons l (ih m)

theorem keptLowAux_sublist (m : ℚ) (ls : List Level) :
    List.Sublist (keptLowAux m ls) ls := by
  induction ls generalizing m with
  | nil => simp [keptLowAux]
  | cons l ls ih =>
    by_cases h : l.level < m
    · simp only [keptLowAux, if_pos h]
      exact List.Sublist.cons₂ l (ih l.level)
    · simp only [keptLowAux, if_neg h]
      exact List.Sublist.cons l (ih m)

theorem keptHighAux_values (m : ℚ) (ls : List Level) :
    (keptHighAux m ls).map Level.level = spec_reduce_high m (ls.map Level.level) := by
  induction ls generalizing m with
  | nil => rfl
  | cons l ls ih => by_cases h : l.level > m <;> simp [keptHighAux, spec_reduce_high, h, ih]

theorem keptLowAux_values (m : ℚ) (ls : List Level) :
    (keptLowAux m ls).map Level.level = spec_reduce_low m (ls.map Level.level) := by
  induction ls generalizing m with
  | nil => rfl
  | cons l ls ih => by_cases h : l.level < m <;> simp [keptLowAux, spec_reduce_low, h, ih]

theorem chain_keptHighAux (m : ℚ) (ls : List Level) :
    List.Chain (· < ·) m ((keptHighAux m ls).map Level.level) := by
  induction ls generalizing m with
  | nil => exact List.Chain.nil
  | cons l ls ih =>
    by_cases h : l.level > m
    · simp only [keptHighAux, if_pos h, List.map_cons]
      exact List.Chain.cons h (ih l.level)
    · simp only [keptHighAux, if_neg h]
      exact ih m

theorem chain_keptLowAux (m : ℚ) (ls : List Level) :
    List.Chain (· > ·) m ((keptLowAux m ls).map Level.level) := by
  induction ls generalizing m with
  | nil => exact List.Chain.nil
  | cons l ls ih =>
    by_cases h : l.level < m
    · simp only [keptLowAux, if_pos h, List.map_cons]
      exact List.Chain.cons h (ih l.level)
    · simp only [keptLowAux, if_neg h]
      exact ih m

theorem keptHighAux_idem (m : ℚ) (ls : List Level) :
    keptHighAux m (keptHighAux m ls) = keptHighAux m ls := by
  induction ls generalizing m with
  | nil => rfl
  | cons l ls ih =>
    by_cases h : l.level > m
    · simp [keptHighAux, h, ih l.level]
    · simp [keptHighAux, h, ih m]

theorem keptLowAux_idem (m : ℚ) (ls : List Level) :
    keptLowAux m (keptLowAux m ls) = keptLowAux m ls := by
  induction ls generalizing m with
  | nil => rfl
  | cons l ls ih =>
    by_cases h : l.level < m
    · simp [keptLowAux, h, ih l.level]
    · simp [keptLowAux, h, ih m]

theorem filter_mem_of_sublist {α : Type} [DecidableEq α] {K L : List α}
    (hsub : List.Sublist K L) (hnd : L.Nodup) :
    L.filter (fun x => decide (x ∈ K)) = K := by
  induction hsub with
  | slnil => rfl
  | cons a hsub ih =>
    rename_i K' L'
    have ha : a ∉ L' := (List.nodup_cons.mp hnd).1
    have haK : a ∉ K' := fun h => ha (hsub.subset h)
    simp only [List.filter_cons, decide_eq_true_eq, if_neg haK]
    exact ih (List.nodup_cons.mp hnd).2
  | cons₂ a hsub ih =>
    rename_i K' L'
    have ha : a ∉ L' := (List.nodup_cons.mp hnd).1
    simp only [List.filter_cons, List.mem_cons, decide_eq_true_eq, true_or, if_pos]
    rw [List.filter_congr (fun x hx => ?_), ih (List.nodup_cons.mp hnd).2]
    have hxa : x ≠ a := fun h => ha (h ▸ hx)
    simp [hxa]

/-- Central characterization of `filter_highs` on a non-empty table with
pairwise-distinct ids: writing the reversed table as most-recent level `mr`
followed by the older levels, the call keeps exactly `mr` together with the
backward scan's kept levels, and the table afterwards holds exactly those
levels in their original (ascending-timestamp) order. -/
theorem filter_highs_eq (levels : List Level) (mr : Level) (older : List Level)
    (hnd : (levels.map Level.id).Nodup) (hrev : levels.reverse = mr :: older) :
    filter_highs levels =
      ((mr :: keptHighAux mr.level older).length,
       levels.length - (mr :: keptHighAux mr.level older).length,
       (mr :: keptHighAux mr.level older).reverse) := by
  set K : List Level := mr :: keptHighAux mr.level older with hK
  have hne : levels ≠ [] := by
    intro h
    rw [h] at hrev
    simp at hrev
  have hKsub : List.Sublist K levels.reverse := by
    rw [hrev]
    exact List.Sublist.cons₂ mr (keptHighAux_sublist mr.level older)
  have hndL : levels.Nodup := List.Nodup.of_map _ hnd
  have hndR : levels.reverse.Nodup := List.nodup_reverse.mpr hndL
  have hids : high_keep_ids levels = K.map Level.id := by
    simp only [high_keep_ids, hrev, keepHighAux_eq_map, hK, List.map_cons]
  have hmemfilter : levels.filter (fun l => (List.map Level.id K).contains l.id) =
      levels.filter (fun l => decide (l ∈ K)) := by
    refine List.filter_congr fun l hl => ?_
    simp only [List.elem_eq_mem, decide_eq_decide, List.mem_map]
    constructor
    · rintro ⟨k, hkK, hkid⟩
      have hkL : k ∈ levels := List.mem_reverse.mp (hKsub.subset hkK)
      exact (List.inj_on_of_nodup_map hnd hkL hl hkid) ▸ hkK
    · intro hlK
      exact ⟨l, hlK, rfl⟩
  have hfilter : levels.filter (fun l => decide (l ∈ K)) = K.reverse := by
    have h1 : levels.reverse.filter (fun l => decide (l ∈ K)) = K :=
      filter_mem_of_sublist hKsub hndR
    have h2 : levels.reverse.filter (fun l => decide (l ∈ K)) =
        (levels.filter (fun l => decide (l ∈ K))).reverse := List.filter_reverse ..
    rw [h2] at h1
    rw [← List.reverse_reverse (levels.filter _), h1]
  have hfull : levels.filter (fun l => (List.map Level.id K).contains l.id) = K.reverse := by
    rw [hmemfilter, hfilter]
  have hlen : K.length ≤ levels.length := by
    have := hKsub.length_le
    simpa using this
  simp only [filter_highs, if_neg hne, hids, List.length_map]
  rw [hfull]
  by_cases hd : 0 < levels.length - K.length
  · rw [if_pos hd]
  · rw [if_neg hd]
    have hKeq : K = levels.reverse := by
      refine hKsub.eq_of_length ?_
      have hz : levels.length - K.length = 0 := Nat.eq_zero_of_not_pos hd
      have : levels.length = K.length := by omega
      simp [← this]
    rw [hKeq, List.reverse_reverse]

/-- Central characterization of `filter_lows`, symmetric to
`filter_highs_eq`. -/
theorem filter_lows_eq (levels : List Level) (mr : Level) (older : List Level)
    (hnd : (levels.map Level.id).Nodup) (hrev : levels.reverse = mr :: older) :
    filter_lows levels =
      ((mr :: keptLowAux mr.level older).length,
       levels.length - (mr :: keptLowAux mr.level older).length,
       (mr :: keptLowAux mr.level older).reverse) := by
  set K : List Level := mr :: keptLowAux mr.level older with hK
  have hne : levels ≠ [] := by
    intro h
    rw [h] at hrev
    simp at hrev
  have hKsub : List.Sublist K levels.reverse := by
    rw [hrev]
    exact List.Sublist.cons₂ mr (keptLowAux_sublist mr.level older)
  have hndL : levels.Nodup := List.Nodup.of_map _ hnd
  have hndR : levels.reverse.Nodup := List.nodup_reverse.mpr hndL
  have hids : low_keep_ids levels = K.map Level.id := by
    simp only [low_keep_ids, hrev, keepLowAux_eq_map, hK, List.map_cons]
  have hmemfilter : levels.filter (fun l => (List.map Level.id K).contains l.id) =
      levels.filter (fun l => decide (l ∈ K)) := by
    refine List.filter_congr fun l hl => ?_
    simp only [List.elem_eq_mem, decide_eq_decide, List.mem_map]
    constructor
    · rintro ⟨k, hkK, hkid⟩
      have hkL : k ∈ levels := List.mem_reverse.mp (hKsub.subset hkK)
      exact (List.inj_on_of_nodup_map hnd hkL hl hkid) ▸ hkK
    · intro hlK
      exact ⟨l, hlK, rfl⟩
  have hfilter : levels.filter (fun l => decide (l ∈ K)) = K.reverse := by
    have h1 : levels.reverse.filter (fun l => decide (l ∈ K)) = K :=
      filter_mem_of_sublist hKsub hndR
    have h2 : levels.reverse.filter (fun l => decide (l ∈ K)) =
        (levels.filter (fun l => decide (l ∈ K))).reverse := List.filter_reverse ..
    rw [h2] at h1
    rw [← List.reverse_reverse (levels.filter _), h1]
  have hfull : levels.filter (fun l => (List.map Level.id K).contains l.id) = K.reverse := by
    rw [hmemfilter, hfilter]
  have hlen : K.length ≤ levels.length := by
    have := hKsub.length_le
    simpa using this
  simp only [filter_lows, if_neg hne, hids, List.length_map]
  rw [hfull]
  by_cases hd : 0 < levels.length - K.length
  · rw [if_pos hd]
  · rw [if_neg hd]
    have hKeq : K = levels.reverse := by
      refine hKsub.eq_of_length ?_
      have hz : levels.length - K.length = 0 := Nat.eq_zero_of_not_pos hd
      have : levels.length = K.length := by omega
      simp [← this]
    rw [hKeq, List.reverse_reverse]

/-- C1: for a level list loaded ascending by timestamp, an empty input
returns `(0, 0)`; otherwise the kept set is exactly the backward monotonic
reduction of the specification (most recent level always kept, each older
level kept iff strictly above the running maximum of kept values for highs,
strictly below the running minimum for lows, equal values discarded), and
the spec's two worked examples give kept `[9,7,6,4]` with `(4, 5)` for
highs and `[3,4,5,6]` with `(4, 5)` for lows. -/
theorem C1_backward_monotonic_reduction :
    (filter_highs [] = (0, 0, []) ∧ filter_lows [] = (0, 0, [])) ∧
    (∀ (levels : List Level) (mr : Level) (older : List Level),
      (levels.map Level.id).Nodup → levels.reverse = mr :: older →
        (filter_highs levels).2.2.reverse.map Level.level =
          mr.level :: spec_reduce_high mr.level (older.map Level.level) ∧
        (filter_lows levels).2.2.reverse.map Level.level =
          mr.level :: spec_reduce_low mr.level (older.map Level.level)) ∧
    ((filter_highs exampleHighs).2.2.map Level.level = [9, 7, 6, 4] ∧
      (filter_highs exampleHighs).1 = 4 ∧ (filter_highs exampleHighs).2.1 = 5) ∧
    ((filter_lows exampleLows).2.2.map Level.level = [3, 4, 5, 6] ∧
      (filter_lows exampleLows).1 = 4 ∧ (filter_lows exampleLows).2.1 = 5) := by
  refine ⟨⟨rfl, rfl⟩, ?_, by decide, by decide⟩
  intro levels mr older hnd hrev
  constructor
  · rw [filter_highs_eq levels mr older hnd hrev]
    simp [keptHighAux_values]
  · rw [filter_lows_eq levels mr older hnd hrev]
    simp [keptLowAux_values]

/-- Witness for C1: the general reduction statement applied to the spec's
concrete high example. -/
theorem C1_backward_monotonic_reduction_witness :
    (filter_highs exampleHighs).2.2.reverse.map Level.level =
      (4 : ℚ) :: spec_reduce_high 4 ([2, 6, 3, 2, 7, 4, 9, 3] : List ℚ) := by
  have h := (C1_backward_monotonic_reduction.2.1 exampleHighs ⟨9, 4, 9⟩
    [⟨8, 2, 8⟩, ⟨7, 6, 7⟩, ⟨6, 3, 6⟩, ⟨5, 2, 5⟩, ⟨4, 7, 4⟩, ⟨3, 4, 3⟩, ⟨2, 9, 2⟩, ⟨1, 3, 1⟩]
    (by decide) (by decide)).1
  simpa using h

/-- Concrete counterexample input for C2: two high levels, the older one
higher than the most recent one, both kept by `filter_highs`. -/
def cexLevels : List Level := [⟨1, 2, 1⟩, ⟨2, 1, 2⟩]

/-- C2 counterexample: the claim says the surviving high levels, read from
most recent to oldest, strictly *decrease*; on input values `[2, 1]`
(oldest to newest) both levels survive and the most-recent-first reading is
`[1, 2]`, which is strictly increasing, refuting the claimed direction. -/
theorem C2_monotonic_frontier_counterexample :
    (filter_highs cexLevels).2.2.reverse.map Level.level = [1, 2] ∧
    ¬ List.Chain' (· > ·) ((filter_highs cexLevels).2.2.reverse.map Level.level) := by
  have h1 : (filter_highs cexLevels).2.2.reverse.map Level.level = [1, 2] := by decide
  refine ⟨h1, ?_⟩
  rw [h1]
  simp only [List.chain'_cons, List.chain'_singleton, and_true]
  norm_num

/-- C2 amended: after every `filter_highs` or `filter_lows` call on levels
with pairwise-distinct ids, the survivors read from most recent to oldest
are strictly monotonic with values strictly *increasing* going back in time
for type=high and strictly *decreasing* for type=low, and the most recent
level is always among the survivors (the last row, in ascending-timestamp
order, is preserved). -/
theorem C2_monotonic_frontier_amended :
    ∀ levels : List Level, (levels.map Level.id).Nodup →
      List.Chain' (· < ·) ((filter_highs levels).2.2.reverse.map Level.level) ∧
      List.Chain' (· > ·) ((filter_lows levels).2.2.reverse.map Level.level) ∧
      ((filter_highs levels).2.2).getLast? = levels.getLast? ∧
      ((filter_lows levels).2.2).getLast? = levels.getLast? := by
  intro levels hnd
  cases hrev : levels.reverse with
  | nil =>
    have h0 : levels = [] := List.reverse_eq_nil_iff.mp hrev
    subst h0
    exact ⟨trivial, trivial, rfl, rfl⟩
  | cons mr older =>
    have hlast : levels.getLast? = some mr := by
      rw [← List.head?_reverse, hrev, List.head?_cons]
    refine ⟨?_, ?_, ?_, ?_⟩
    · rw [filter_highs_eq levels mr older hnd hrev, List.reverse_reverse,
        List.map_cons]
      exact chain_keptHighAux mr.level older
    · rw [filter_lows_eq levels mr older hnd hrev, List.reverse_reverse,
        List.map_cons]
      exact chain_keptLowAux mr.level older
    · rw [filter_highs_eq levels mr older hnd hrev, List.getLast?_reverse,
        List.head?_cons, hlast]
    · rw [filter_lows_eq levels mr older hnd hrev, List.getLast?_reverse,
        List.head?_cons, hlast]

/-- C3: the filter is idempotent — re-running `filter_highs` or
`filter_lows` immediately on the table a first call left behind, with no
new levels inserted, returns the same kept count together with zero
deletions and leaves the table unchanged. -/
theorem C3_filter_idempotent :
    ∀ levels : List Level, (levels.map Level.id).Nodup →
      filter_highs ((filter_highs levels).2.2) =
        ((filter_highs levels).1, 0, (filter_highs levels).2.2) ∧
      filter_lows ((filter_lows levels).2.2) =
        ((filter_lows levels).1, 0, (filter_lows levels).2.2) := by
  intro levels hnd
  cases hrev : levels.reverse with
  | nil =>
    have h0 : levels = [] := List.reverse_eq_nil_iff.mp hrev
    subst h0
    exact ⟨rfl, rfl⟩
  | cons mr older =>
    constructor
    · have hfh := filter_highs_eq levels mr older hnd hrev
      set A : List Level := keptHighAux mr.level older with hA
      have hKsub : List.Sublist (mr :: A) levels.reverse := by
        rw [hrev]
        exact List.Sublist.cons₂ mr (keptHighAux_sublist mr.level older)
      have hndK : ((mr :: A).map Level.id).Nodup := by
        have hrevnd : ((levels.map Level.id).reverse).Nodup :=
          List.nodup_reverse.mpr hnd
        rw [← List.map_reverse] at hrevnd
        exact hrevnd.sublist (hKsub.map Level.id)
      have hndS : (((mr :: A).reverse).map Level.id).Nodup := by
        rw [List.map_reverse]
        exact List.nodup_reverse.mpr hndK
      have hSrev : ((mr :: A).reverse).reverse = mr :: A := List.reverse_reverse _
      have h2 := filter_highs_eq ((mr :: A).reverse) mr A hndS hSrev
      rw [hfh]
      dsimp only
      rw [h2, hA, keptHighAux_idem]
      simp
    · have hfl := filter_lows_eq levels mr older hnd hrev
      set A : List Level := keptLowAux mr.level older with hA
      have hKsub : List.Sublist (mr :: A) levels.reverse := by
        rw [hrev]
        exact List.Sublist.cons₂ mr (keptLowAux_sublist mr.level older)
      have hndK : ((mr :: A).map Level.id).Nodup := by
        have hrevnd : ((levels.map Level.id).reverse).Nodup :=
          List.nodup_reverse.mpr hnd
        rw [← List.map_reverse] at hrevnd
        exact hrevnd.sublist (hKsub.map Level.id)
      have hndS : (((mr :: A).reverse).map Level.id).Nodup := by
        rw [List.map_reverse]
        exact List.nodup_reverse.mpr hndK
      have hSrev : ((mr :: A).reverse).reverse = mr :: A := List.reverse_reverse _
      have h2 := filter_lows_eq ((mr :: A).reverse) mr A hndS hSrev
      rw [hfl]
      dsimp only
      rw [h2, hA, keptLowAux_idem]
      simp

/-- Witness for C3: idempotence evaluated on the spec's two worked
examples. -/
theorem C3_filter_idempotent_witness :
    filter_highs ((filter_highs exampleHighs).2.2) =
      ((filter_highs exampleHighs).1, 0, (filter_highs exampleHighs).2.2) ∧
    filter_lows ((filter_lows exampleLows).2.2) =
      ((filter_lows exampleLows).1, 0, (filter_lows exampleLows).2.2) :=
  ⟨(C3_filter_idempotent exampleHighs (by decide)).1,
   (C3_filter_idempotent exampleLows (by decide)).2⟩

theorem high_keep_ids_ne_nil (levels : List Level) (hne : levels ≠ []) :
    high_keep_ids levels ≠ [] := by
  cases hrev : levels.reverse with
  | nil => exact absurd (List.reverse_eq_nil_iff.mp hrev) hne
  | cons mr older =>
    simp only [high_keep_ids, hrev]
    exact List.cons_ne_nil _ _

theorem low_keep_ids_ne_nil (levels : List Level) (hne : levels ≠ []) :
    low_keep_ids levels ≠ [] := by
  cases hrev : levels.reverse with
  | nil => exact absurd (List.reverse_eq_nil_iff.mp hrev) hne
  | cons mr older =>
    simp only [low_keep_ids, hrev]
    exact List.cons_ne_nil _ _

/-- C10: kept plus deleted always equals the number of levels read, and on
a non-empty input at least one level (the most recent) is kept, so the
keep-id list handed to the delete step is never empty. -/
theorem C10_kept_deleted_accounting :
    ∀ levels : List Level,
      ((filter_highs levels).1 + (filter_highs levels).2.1 = levels.length ∧
       (filter_lows levels).1 + (filter_lows levels).2.1 = levels.length) ∧
      (levels ≠ [] →
        1 ≤ (filter_highs levels).1 ∧ 1 ≤ (filter_lows levels).1 ∧
        high_keep_ids levels ≠ [] ∧ low_keep_ids levels ≠ []) := by
  intro levels
  cases hrev : levels.reverse with
  | nil =>
    have h0 : levels = [] := List.reverse_eq_nil_iff.mp hrev
    subst h0
    exact ⟨⟨rfl, rfl⟩, fun hne => absurd rfl hne⟩
  | cons mr older =>
    have hne : levels ≠ [] := by
      intro h
      rw [h] at hrev
      simp at hrev
    have hlev : levels.length = older.length + 1 := by
      have h := congrArg List.length hrev
      rw [List.length_reverse] at h
      simpa using h
    have hleH : (keepHighAux mr.level older).length ≤ older.length := by
      rw [keepHighAux_eq_map, List.length_map]
      exact (keptHighAux_sublist mr.level older).length_le
    have hleL : (keepLowAux mr.level older).length ≤ older.length := by
      rw [keepLowAux_eq_map, List.length_map]
      exact (keptLowAux_sublist mr.level older).length_le
    have hidsH : high_keep_ids levels = mr.id :: keepHighAux mr.level older := by
      simp only [high_keep_ids, hrev]
    have hidsL : low_keep_ids levels = mr.id :: keepLowAux mr.level older := by
      simp only [low_keep_ids, hrev]
    refine ⟨⟨?_, ?_⟩, fun _ => ⟨?_, ?_, ?_, ?_⟩⟩
    · simp only [filter_highs, if_neg hne, hidsH, List.length_cons]
      omega
    · simp only [filter_lows, if_neg hne, hidsL, List.length_cons]
      omega
    · simp only [filter_highs, if_neg hne, hidsH, List.length_cons]
      omega
    · simp only [filter_lows, if_neg hne, hidsL, List.length_cons]
      omega
    · rw [hidsH]
      exact List.cons_ne_nil _ _
    · rw [hidsL]
      exact List.cons_ne_nil _ _

/-- Witness for C10: the accounting evaluated on the spec's high example. -/
theorem C10_kept_deleted_accounting_witness :
    (filter_highs exampleHighs).1 + (filter_highs exampleHighs).2.1 =
      exampleHighs.length ∧
    1 ≤ (filter_highs exampleHighs).1 ∧ high_keep_ids exampleHighs ≠ [] :=
  ⟨(C10_kept_deleted_accounting exampleHighs).1.1,
   ((C10_kept_deleted_accounting exampleHighs).2 (by decide)).1,
   ((C10_kept_deleted_accounting exampleHighs).2 (by decide)).2.2.1⟩

/-- Outcome of one instrumented `filter_highs` / `filter_lows` invocation
against the database: the value returned to the caller (or the raised
error), the committed table contents after the call, and whether a DELETE
statement was issued at all. -/
structure FilterRun where
  result : Except String (Nat × Nat)
  store : List Level
  deleteIssued : Bool
deriving Repr

/-- Instrumented `filter_highs`: the connection runs with autocommit off
and the prune is one single-statement DELETE followed by one commit, so a
database failure during the delete (modelled by the `deleteFails` oracle)
raises before the commit and the pre-call committed table stays in place;
PostgreSQL applies a single DELETE statement atomically, never partially.
When `deleted_count` is zero the source skips the DELETE entirely. -/
def filter_highs_run (deleteFails : Bool) (levels : List Level) : FilterRun :=
  if levels = [] then ⟨.ok (0, 0), levels, false⟩
  else
    if 0 < levels.length - (high_keep_ids levels).length then
      if deleteFails then ⟨.error "delete failed", levels, true⟩
      else
        ⟨.ok ((high_keep_ids levels).length,
              levels.length - (high_keep_ids levels).length),
         levels.filter (fun l => (high_keep_ids levels).contains l.id), true⟩
    else
      ⟨.ok ((high_keep_ids levels).length,
            levels.length - (high_keep_ids levels).length),
       levels, false⟩

/-- Instrumented `filter_lows`, symmetric to `filter_highs_run`. -/
def filter_lows_run (deleteFails : Bool) (levels : List Level) : FilterRun :=
  if levels = [] then ⟨.ok (0, 0), levels, false⟩
  else
    if 0 < levels.length - (low_keep_ids levels).length then
      if deleteFails then ⟨.error "delete failed", levels, true⟩
      else
        ⟨.ok ((low_keep_ids levels).length,
              levels.length - (low_keep_ids levels).length),
         levels.filter (fun l => (low_keep_ids levels).contains l.id), true⟩
    else
      ⟨.ok ((low_keep_ids levels).length,
            levels.length - (low_keep_ids levels).length),
       levels, false⟩

theorem filter_highs_run_spec (df : Bool) (levels : List Level) :
    ((filter_highs levels).2.1 = 0 →
      (filter_highs_run df levels).deleteIssued = false ∧
      (filter_highs_run df levels).store = levels) ∧
    (∀ e, (filter_highs_run df levels).result = .error e →
      (filter_highs_run df levels).store = levels) ∧
    (∀ p, (filter_highs_run df levels).result = .ok p →
      (filter_highs_run df levels).store = (filter_highs levels).2.2 ∧
      p = ((filter_highs levels).1, (filter_highs levels).2.1)) ∧
    ((filter_highs_run df levels).deleteIssued = true →
      high_keep_ids levels ≠ []) := by
  by_cases hne : levels = []
  · subst hne
    cases df <;>
      exact ⟨fun _ => ⟨rfl, rfl⟩, fun e he => Except.noConfusion he,
        fun p hp => by injection hp with h; subst h; exact ⟨rfl, rfl⟩,
        fun h => Bool.noConfusion h⟩
  · have hkeep : high_keep_ids levels ≠ [] := high_keep_ids_ne_nil levels hne
    have hfh : filter_highs levels =
        ((high_keep_ids levels).length,
         levels.length - (high_keep_ids levels).length,
         if 0 < levels.length - (high_keep_ids levels).length then
           levels.filter (fun l => (high_keep_ids levels).contains l.id)
         else levels) := by
      simp only [filter_highs, if_neg hne]
    by_cases hd : 0 < levels.length - (high_keep_ids levels).length
    · cases df
      · have hrun : filter_highs_run false levels =
            ⟨.ok ((high_keep_ids levels).length,
                  levels.length - (high_keep_ids levels).length),
             levels.filter (fun l => (high_keep_ids levels).contains l.id),
             true⟩ := by
          simp [filter_highs_run, hne, hd]
        rw [hrun, hfh, if_pos hd]
        dsimp only
        exact ⟨fun h => absurd h (by omega), fun e he => Except.noConfusion he,
          fun p hp => by injection hp with h; subst h; exact ⟨rfl, rfl⟩,
          fun _ => hkeep⟩
      · have hrun : filter_highs_run true levels =
            ⟨.error "delete failed", levels, true⟩ := by
          simp [filter_highs_run, hne, hd]
        rw [hrun, hfh, if_pos hd]
        dsimp only
        exact ⟨fun h => absurd h (by omega), fun e _ => rfl,
          fun p hp => Except.noConfusion hp, fun _ => hkeep⟩
    · have hrun : filter_highs_run df levels =
          ⟨.ok ((high_keep_ids levels).length,
                levels.length - (high_keep_ids levels).length), levels, false⟩ := by
        simp [filter_highs_run, hne, hd]
      rw [hrun, hfh, if_neg hd]
      dsimp only
      exact ⟨fun _ => ⟨rfl, rfl⟩, fun e he => Except.noConfusion he,
        fun p hp => by injection hp with h; subst h; exact ⟨rfl, rfl⟩,
        fun h => Bool.noConfusion h⟩

theorem filter_lows_run_spec (df : Bool) (levels : List Level) :
    ((filter_lows levels).2.1 = 0 →
      (filter_lows_run df levels).deleteIssued = false ∧
      (filter_lows_run df levels).store = levels) ∧
    (∀ e, (filter_lows_run df levels).result = .error e →
      (filter_lows_run df levels).store = levels) ∧
    (∀ p, (filter_lows_run df levels).result = .ok p →
      (filter_lows_run df levels).store = (filter_lows levels).2.2 ∧
      p = ((filter_lows levels).1, (filter_lows levels).2.1)) ∧
    ((filter_lows_run df levels).deleteIssued = true →
      low_keep_ids levels ≠ []) := by
  by_cases hne : levels = []
  · subst hne
    cases df <;>
      exact ⟨fun _ => ⟨rfl, rfl⟩, fun e he => Except.noConfusion he,
        fun p hp => by injection hp with h; subst h; exact ⟨rfl, rfl⟩,
        fun h => Bool.noConfusion h⟩
  · have hkeep : low_keep_ids levels ≠ [] := low_keep_ids_ne_nil levels hne
    have hfl : filter_lows levels =
        ((low_keep_ids levels).length,
         levels.length - (low_keep_ids levels).length,
         if 0 < levels.length - (low_keep_ids levels).length then
           levels.filter (fun l => (low_keep_ids levels).contains l.id)
         else levels) := by
      simp only [filter_lows, if_neg hne]
    by_cases hd : 0 < levels.length - (low_keep_ids levels).length
    · cases df
      · have hrun : filter_lows_run false levels =
            ⟨.ok ((low_keep_ids levels).length,
                  levels.length - (low_keep_ids levels).length),
             levels.filter (fun l => (low_keep_ids levels).contains l.id),
             true⟩ := by
          simp [filter_lows_run, hne, hd]
        rw [hrun, hfl, if_pos hd]
        dsimp only
        exact ⟨fun h => absurd h (by omega), fun e he => Except.noConfusion he,
          fun p hp => by injection hp with h; subst h; exact ⟨rfl, rfl⟩,
          fun _ => hkeep⟩
      · have hrun : filter_lows_run true levels =
            ⟨.error "delete failed", levels, true⟩ := by
          simp [filter_lows_run, hne, hd]
        rw [hrun, hfl, if_pos hd]
        dsimp only
        exact ⟨fun h => absurd h (by omega), fun e _ => rfl,
          fun p hp => Except.noConfusion hp, fun _ => hkeep⟩
    · have hrun : filter_lows_run df levels =
          ⟨.ok ((low_keep_ids levels).length,
                levels.length - (low_keep_ids levels).length), levels, false⟩ := by
        simp [filter_lows_run, hne, hd]
      rw [hrun, hfl, if_neg hd]
      dsimp only
      exact ⟨fun _ => ⟨rfl, rfl⟩, fun e he => Except.noConfusion he,
        fun p hp => by injection hp with h; subst h; exact ⟨rfl, rfl⟩,
        fun h => Bool.noConfusion h⟩

/-- C9: the read-reduce-delete sequence is atomic — when nothing is to be
deleted no DELETE is issued and the table is untouched; when the delete
fails the committed table is exactly the pre-call one (no partial
deletion); when the call succeeds the table is exactly the fully filtered
one; and a DELETE is only ever issued with a non-empty keep-id list, so no
malformed empty-set query arises. -/
theorem C9_read_reduce_delete_atomic :
    ∀ (deleteFails : Bool) (levels : List Level),
      ((filter_highs levels).2.1 = 0 →
        (filter_highs_run deleteFails levels).deleteIssued = false ∧
        (filter_highs_run deleteFails levels).store = levels) ∧
      (∀ e, (filter_highs_run deleteFails levels).result = .error e →
        (filter_highs_run deleteFails levels).store = levels) ∧
      (∀ p, (filter_highs_run deleteFails levels).result = .ok p →
        (filter_highs_run deleteFails levels).store = (filter_highs levels).2.2 ∧
        p = ((filter_highs levels).1, (filter_highs levels).2.1)) ∧
      ((filter_highs_run deleteFails levels).deleteIssued = true →
        high_keep_ids levels ≠ []) ∧
      ((filter_lows levels).2.1 = 0 →
        (filter_lows_run deleteFails levels).deleteIssued = false ∧
        (filter_lows_run deleteFails levels).store = levels) ∧
      (∀ e, (filter_lows_run deleteFails levels).result = .error e →
        (filter_lows_run deleteFails levels).store = levels) ∧
      (∀ p, (filter_lows_run deleteFails levels).result = .ok p →
        (filter_lows_run deleteFails levels).store = (filter_lows levels).2.2 ∧
        p = ((filter_lows levels).1, (filter_lows levels).2.1)) ∧
      ((filter_lows_run deleteFails levels).deleteIssued = true →
        low_keep_ids levels ≠ []) := by
  intro deleteFails levels
  exact ⟨(filter_highs_run_spec deleteFails levels).1,
    (filter_highs_run_spec deleteFails levels).2.1,
    (filter_highs_run_spec deleteFails levels).2.2.1,
    (filter_highs_run_spec deleteFails levels).2.2.2,
    (filter_lows_run_spec deleteFails levels).1,
    (filter_lows_run_spec deleteFails levels).2.1,
    (filter_lows_run_spec deleteFails levels).2.2.1,
    (filter_lows_run_spec deleteFails levels).2.2.2⟩

/-- Witness for C9: a failing delete on the spec's high example leaves the
table exactly as it was before the call. -/
theorem C9_read_reduce_delete_atomic_witness :
    (filter_highs_run true exampleHighs).store = exampleHighs :=
  (C9_read_reduce_delete_atomic true exampleHighs).2.1 "delete failed" rfl

/-- Witness for C2 amended: the invariant evaluated on the spec's high
example after filtering. -/
theorem C2_monotonic_frontier_amended_witness :
    List.Chain' (· < ·) ((filter_highs exampleHighs).2.2.reverse.map Level.level) ∧
    ((filter_highs exampleHighs).2.2).getLast? = exampleHighs.getLast? :=
  ⟨(C2_monotonic_frontier_amended exampleHighs (by decide)).1,
   (C2_monotonic_frontier_amended exampleHighs (by decide)).2.2.1⟩

/-- One row of a `{symbol}_{timeframe}` candle table as read by
`FakeoutDetector.get_latest_candle`, together with the annotation columns
written by `mark_fakeout`.  The column `open` is spelled `open_`. -/
structure Candle where
  timestamp : Nat
  open_ : ℚ
  high : ℚ
  low : ℚ
  close : ℚ
  is_fakeout : Bool
  fakeout_type : Option String
  fakeout_level : Option ℚ
deriving Repr, DecidableEq

/-- `FakeoutDetector.get_latest_candle`: the row with the greatest
timestamp (`ORDER BY timestamp DESC LIMIT 1`), or none for an empty
table.  Timestamps are unique within a table. -/
def get_latest_candle : List Candle → Option Candle
  | [] => none
  | c :: cs =>
    match get_latest_candle cs with
    | none => some c
    | some m => if m.timestamp > c.timestamp then some m else some c

/-- The `level_type = 'high'` loop of `FakeoutDetector.check_fakeout`:
return `('high', level)` for the first level with
`candle.high > level and candle.close < level`. -/
def checkHighLevels (high close : ℚ) : List ℚ → Option (String × ℚ)
  | [] => none
  | level :: rest =>
    if high > level ∧ close < level then some ("high", level)
    else checkHighLevels high close rest

/-- The `level_type = 'low'` loop of `FakeoutDetector.check_fakeout`:
return `('low', level)` for the first level with
`candle.low < level and candle.close > level`. -/
def checkLowLevels (low close : ℚ) : List ℚ → Option (String × ℚ)
  | [] => none
  | level :: rest =>
    if low < level ∧ close > level then some ("low", level)
    else checkLowLevels low close rest

/-- `FakeoutDetector.check_fakeout`: the levels list is as returned by
`FakeoutDetector.get_levels`, i.e. ordered ascending by value
(`ORDER BY level`). -/
def check_fakeout (candle : Candle) (levels : List ℚ) (level_type : String) :
    Option (String × ℚ) :=
  if level_type = "high" then checkHighLevels candle.high candle.close levels
  else if level_type = "low" then checkLowLevels candle.low candle.close levels
  else none

/-- The shared tail of `check_hourly_fakeouts`, `check_4h_fakeouts` and
`check_daily_fakeouts`: check the high levels first and fall through to
the low levels only when no high level matched. -/
def check_candle_against (candle : Candle) (high_levels low_levels : List ℚ) :
    Option (String × ℚ) :=
  match check_fakeout candle high_levels "high" with
  | some r => some r
  | none => check_fakeout candle low_levels "low"

/-- `FakeoutDetector.mark_fakeout`: the SQL UPDATE sets
`is_fakeout = TRUE, fakeout_type, fakeout_level` on every row of the table
whose timestamp matches; the WHERE clause carries no condition on the
current annotation. -/
def mark_fakeout (table : List Candle) (ts : Nat) (fakeout_type : String)
    (fakeout_level : ℚ) : List Candle :=
  table.map fun c =>
    if c.timestamp = ts then
      { c with is_fakeout := true, fakeout_type := some fakeout_type,
               fakeout_level := some fakeout_level }
    else c

/-- The payload handed to the notification channel by
`TelegramNotifier.send_fakeout_alert`. -/
structure Alert where
  symbol : String
  timeframe : String
  fakeout_type : String
  level : ℚ
  candle_high : ℚ
  candle_low : ℚ
  candle_close : ℚ
  candle_timestamp : Nat
deriving Repr, DecidableEq

/-- `TelegramNotifier.send_fakeout_alert`: builds and sends one alert from
the match details and the candle snapshot.  It lives in
`market_scanner/telegram_notifier.py` and is invoked only from that
module's own test; nothing in `fakeout_detector.py` calls it. -/
def send_fakeout_alert (symbol timeframe fakeout_type : String) (level : ℚ)
    (candle : Candle) : Alert :=
  ⟨symbol, timeframe, fakeout_type, level, candle.high, candle.low,
   candle.close, candle.timestamp⟩

/-- Everything one `check_*_fakeouts` call does that is observable: the
boolean returned to the caller, the candle table for the checked
(symbol, timeframe) after the call, the alerts dispatched during the call,
and the warnings logged (`logger.warning`, used only for missing data). -/
structure DetectorResult where
  flagged : Bool
  table : List Candle
  alerts : List Alert
  warnings : List String
deriving Repr, DecidableEq

/-- `FakeoutDetector.check_hourly_fakeouts`: reads the newest 1h candle of
the symbol, skips annotated candles, checks it against the symbol's daily
levels (highs first, then lows) and on a match marks the candle.  The
source dispatches no alert in any branch — its body ends with
`mark_fakeout` and `return True`. -/
def check_hourly_fakeouts (candles : String → String → List Candle)
    (levels : String → String → String → List ℚ) (symbol : String) :
    DetectorResult :=
  match get_latest_candle (candles symbol "1h") with
  | none => ⟨false, candles symbol "1h", [], ["No 1h candle found for " ++ symbol]⟩
  | some candle =>
    if candle.is_fakeout then ⟨false, candles symbol "1h", [], []⟩
    else
      match check_candle_against candle (levels symbol "daily" "high")
          (levels symbol "daily" "low") with
      | some (fakeout_type, level) =>
        ⟨true, mark_fakeout (candles symbol "1h") candle.timestamp fakeout_type level,
         [], []⟩
      | none => ⟨false, candles symbol "1h", [], []⟩

/-- `FakeoutDetector.check_4h_fakeouts`: newest 4h candle against the
weekly levels. -/
def check_4h_fakeouts (candles : String → String → List Candle)
    (levels : String → String → String → List ℚ) (symbol : String) :
    DetectorResult :=
  match get_latest_candle (candles symbol "4h") with
  | none => ⟨false, candles symbol "4h", [], ["No 4h candle found for " ++ symbol]⟩
  | some candle =>
    if candle.is_fakeout then ⟨false, candles symbol "4h", [], []⟩
    else
      match check_candle_against candle (levels symbol "weekly" "high")
          (levels symbol "weekly" "low") with
      | some (fakeout_type, level) =>
        ⟨true, mark_fakeout (candles symbol "4h") candle.timestamp fakeout_type level,
         [], []⟩
      | none => ⟨false, candles symbol "4h", [], []⟩

/-- `FakeoutDetector.check_daily_fakeouts`: newest 1d candle against the
monthly levels. -/
def check_daily_fakeouts (candles : String → String → List Candle)
    (levels : String → String → String → List ℚ) (symbol : String) :
    DetectorResult :=
  match get_latest_candle (candles symbol "1d") with
  | none => ⟨false, candles symbol "1d", [], ["No daily candle found for " ++ symbol]⟩
  | some candle =>
    if candle.is_fakeout then ⟨false, candles symbol "1d", [], []⟩
    else
      match check_candle_against candle (levels symbol "monthly" "high")
          (levels symbol "monthly" "low") with
      | some (fakeout_type, level) =>
        ⟨true, mark_fakeout (candles symbol "1d") candle.timestamp fakeout_type level,
         [], []⟩
      | none => ⟨false, candles symbol "1d", [], []⟩

/-- The `method_map` dictionary of `FakeoutDetector.check_all_symbols`:
only `1h`, `4h` and `1d` are present. -/
def method_map (timeframe : String) :
    Option ((String → String → List Candle) →
      (String → String → String → List ℚ) → String → DetectorResult) :=
  if timeframe = "1h" then some check_hourly_fakeouts
  else if timeframe = "4h" then some check_4h_fakeouts
  else if timeframe = "1d" then some check_daily_fakeouts
  else none

/-- The fixed symbol universe shared by `check_all_symbols` and
`filter_all`. -/
def symbols : List String :=
  ["btcusdt", "ethusdt", "ltcusdt", "xrpusdt", "dogeusdt", "linkusdt", "adausdt"]

/-- `FakeoutDetector.check_all_symbols`: look the timeframe up in
`method_map`, raising `ValueError` for anything else, then run the check
for each symbol.  Candle tables are per (symbol, timeframe), so the
per-symbol results are independent. -/
def check_all_symbols (candles : String → String → List Candle)
    (levels : String → String → String → List ℚ) (timeframe : String) :
    Except String (List DetectorResult) :=
  match method_map timeframe with
  | none => .error ("Invalid timeframe: " ++ timeframe)
  | some check_method => .ok (symbols.map (check_method candles levels))

-- Lemmas about the fakeout matching loops.

theorem checkHighLevels_eq_find (h c : ℚ) (ls : List ℚ) :
    checkHighLevels h c ls =
      (ls.find? (fun l => decide (h > l ∧ c < l))).map (fun l => ("high", l)) := by
  induction ls with
  | nil => rfl
  | cons a as ih =>
    by_cases hc : h > a ∧ c < a
    · rw [List.find?_cons_of_pos _ (by simpa using hc)]
      simp only [checkHighLevels, if_pos hc, Option.map_some']
    · rw [List.find?_cons_of_neg _ (by simpa using hc)]
      simp only [checkHighLevels, if_neg hc, ih]

theorem checkLowLevels_eq_find (lo c : ℚ) (ls : List ℚ) :
    checkLowLevels lo c ls =
      (ls.find? (fun l => decide (lo < l ∧ c > l))).map (fun l => ("low", l)) := by
  induction ls with
  | nil => rfl
  | cons a as ih =>
    by_cases hc : lo < a ∧ c > a
    · rw [List.find?_cons_of_pos _ (by simpa using hc)]
      simp only [checkLowLevels, if_pos hc, Option.map_some']
    · rw [List.find?_cons_of_neg _ (by simpa using hc)]
      simp only [checkLowLevels, if_neg hc, ih]

theorem find?_min_of_sorted (p : ℚ → Bool) :
    ∀ ls : List ℚ, List.Sorted (· ≤ ·) ls → ∀ v, ls.find? p = some v →
      ∀ l ∈ ls, p l = true → v ≤ l := by
  intro ls
  induction ls with
  | nil => intro _ v hv; cases hv
  | cons a as ih =>
    intro hs v hv l hl hpl
    rcases List.sorted_cons.mp hs with ⟨ha, has⟩
    by_cases hpa : p a = true
    · rw [List.find?_cons_of_pos _ hpa] at hv
      injection hv with hva
      subst hva
      rcases List.mem_cons.mp hl with h1 | h2
      · exact h1 ▸ le_refl _
      · exact ha l h2
    · rw [List.find?_cons_of_neg _ (by simpa using hpa)] at hv
      rcases List.mem_cons.mp hl with h1 | h2
      · exact absurd (h1 ▸ hpl) hpa
      · exact ih has v hv l h2 hpl

/-- Concrete candle of the spec's fakeout example:
`{high=105, low=99.5, close=99}`, not yet annotated. -/
def fakeoutCandle : Candle := ⟨1, 100, 105, 199/2, 99, false, none, none⟩

/-- Concrete candle of the spec's boundary example: `{high=100, close=99}`,
not yet annotated. -/
def boundaryCandle : Candle := ⟨1, 99, 100, 99, 99, false, none, none⟩

/-- C4: the fakeout check evaluates the high levels first and matches the
first level (the lists arrive ascending by value) with
`candle.high > level and candle.close < level`; only when no high level
matches are the low levels evaluated, matching the first with
`candle.low < level and candle.close > level`; all inequalities are
strict, so a candle whose high or close equals the level never matches it;
and the spec's two worked examples evaluate as claimed. -/
theorem C4_first_match_high_then_low :
    (∀ (candle : Candle) (highs lows : List ℚ) (r : String × ℚ),
      check_fakeout candle highs "high" = some r →
        check_candle_against candle highs lows = some r) ∧
    (∀ (candle : Candle) (highs lows : List ℚ),
      check_fakeout candle highs "high" = none →
        check_candle_against candle highs lows = check_fakeout candle lows "low") ∧
    (∀ (candle : Candle) (levels : List ℚ),
      check_fakeout candle levels "high" =
        (levels.find? (fun l => decide (candle.high > l ∧ candle.close < l))).map
          (fun l => ("high", l)) ∧
      check_fakeout candle levels "low" =
        (levels.find? (fun l => decide (candle.low < l ∧ candle.close > l))).map
          (fun l => ("low", l))) ∧
    (∀ (candle : Candle) (levels : List ℚ) (v : ℚ),
      List.Sorted (· ≤ ·) levels →
      check_fakeout candle levels "high" = some ("high", v) →
        ∀ l ∈ levels, candle.high > l ∧ candle.close < l → v ≤ l) ∧
    (∀ (candle : Candle) (levels : List ℚ) (l : ℚ),
      candle.high = l ∨ candle.close = l →
        check_fakeout candle levels "high" ≠ some ("high", l)) ∧
    check_candle_against fakeoutCandle [100] [] = some ("high", 100) ∧
    check_candle_against boundaryCandle [100] [] = none := by
  have hchar : ∀ (candle : Candle) (levels : List ℚ),
      check_fakeout candle levels "high" =
        (levels.find? (fun l => decide (candle.high > l ∧ candle.close < l))).map
          (fun l => ("high", l)) ∧
      check_fakeout candle levels "low" =
        (levels.find? (fun l => decide (candle.low < l ∧ candle.close > l))).map
          (fun l => ("low", l)) := by
    intro candle levels
    constructor
    · simp [check_fakeout, checkHighLevels_eq_find]
    · simp [check_fakeout, checkLowLevels_eq_find]
  refine ⟨?_, ?_, hchar, ?_, ?_, by decide, by decide⟩
  · intro candle highs lows r h
    simp [check_candle_against, h]
  · intro candle highs lows h
    simp [check_candle_against, h]
  · intro candle levels v hs hv l hl hcond
    rw [(hchar candle levels).1] at hv
    rcases Option.map_eq_some'.mp hv with ⟨a, ha, hpair⟩
    have hav : a = v := by
      injection hpair with h1 h2
    subst hav
    exact find?_min_of_sorted _ levels hs a ha l hl (decide_eq_true hcond)
  · intro candle levels l heq hsome
    rw [(hchar candle levels).1] at hsome
    rcases Option.map_eq_some'.mp hsome with ⟨a, ha, hpair⟩
    have hal : a = l := by
      injection hpair with h1 h2
    subst hal
    have hp := List.find?_some ha
    have hcond := of_decide_eq_true hp
    rcases heq with h1 | h1
    · exact absurd hcond.1 (by rw [h1]; exact lt_irrefl a)
    · exact absurd hcond.2 (by rw [h1]; exact lt_irrefl a)

/-- Witness for C4: the high-match-wins component applied to the spec's
fakeout example. -/
theorem C4_first_match_high_then_low_witness :
    check_candle_against fakeoutCandle [100] [] = some ("high", 100) :=
  C4_first_match_high_then_low.1 fakeoutCandle [100] [] ("high", 100) (by decide)

/-- A candle that already carries an annotation: flagged as a low fakeout
at level 50. -/
def annotatedCandle : Candle := ⟨1, 100, 105, 99, 100, true, some "low", some 50⟩

/-- C5 counterexample: the UPDATE issued by `mark_fakeout` carries no
condition on the current annotation, so attempting the write on an
already-annotated candle does take effect and overwrites the annotation —
here a recorded low fakeout at 50 becomes a high fakeout at 100 — refuting
the claim that the write only applies while the annotation is unset. -/
theorem C5_annotation_guard_counterexample :
    annotatedCandle.is_fakeout = true ∧
    mark_fakeout [annotatedCandle] 1 "high" 100 ≠ [annotatedCandle] ∧
    mark_fakeout [annotatedCandle] 1 "high" 100 =
      [⟨1, 100, 105, 99, 100, true, some "high", some 100⟩] := by
  refine ⟨rfl, by decide, by decide⟩

/-- C5 amended: `mark_fakeout` writes the annotation unconditionally —
every candle at the given timestamp receives the new
`(is_fakeout, fakeout_type, fakeout_level)` regardless of its current
annotation, while candles at other timestamps are untouched; the
at-most-once transition is enforced only by the callers, which skip the
newest candle when its annotation is already set. -/
theorem C5_annotation_write_amended :
    (∀ (table : List Candle) (ts : Nat) (ft : String) (lv : ℚ) (c : Candle),
      c ∈ table → c.timestamp = ts →
        { c with is_fakeout := true, fakeout_type := some ft,
                 fakeout_level := some lv } ∈ mark_fakeout table ts ft lv) ∧
    (∀ (table : List Candle) (ts : Nat) (ft : String) (lv : ℚ) (c : Candle),
      c ∈ table → c.timestamp ≠ ts → c ∈ mark_fakeout table ts ft lv) ∧
    (∀ (candles : String → String → List Candle)
       (levels : String → String → String → List ℚ) (symbol : String)
       (c : Candle),
      get_latest_candle (candles symbol "1h") = some c → c.is_fakeout = true →
        check_hourly_fakeouts candles levels symbol =
          ⟨false, candles symbol "1h", [], []⟩) := by
  refine ⟨?_, ?_, ?_⟩
  · intro table ts ft lv c hc hts
    have := List.mem_map_of_mem
      (fun c : Candle =>
        if c.timestamp = ts then
          { c with is_fakeout := true, fakeout_type := some ft,
                   fakeout_level := some lv }
        else c) hc
    simp only [if_pos hts] at this
    exact this
  · intro table ts ft lv c hc hts
    have := List.mem_map_of_mem
      (fun c : Candle =>
        if c.timestamp = ts then
          { c with is_fakeout := true, fakeout_type := some ft,
                   fakeout_level := some lv }
        else c) hc
    simp only [if_neg hts] at this
    exact this
  · intro candles levels symbol c hlatest hfk
    unfold check_hourly_fakeouts
    rw [hlatest]
    dsimp only
    rw [if_pos hfk]

/-- Witness for C5 amended: the unconditional write applied to the
already-annotated candle. -/
theorem C5_annotation_write_amended_witness :
    (⟨1, 100, 105, 99, 100, true, some "high", some (100 : ℚ)⟩ : Candle) ∈
      mark_fakeout [annotatedCandle] 1 "high" 100 :=
  C5_annotation_write_amended.1 [annotatedCandle] 1 "high" 100 annotatedCandle
    (by decide) rfl

-- Helper lemmas: no branch of any check function dispatches an alert.

theorem check_hourly_alerts_nil (candles : String → String → List Candle)
    (levels : String → String → String → List ℚ) (symbol : String) :
    (check_hourly_fakeouts candles levels symbol).alerts = [] := by
  unfold check_hourly_fakeouts
  cases get_latest_candle (candles symbol "1h") with
  | none => rfl
  | some c =>
    dsimp only
    by_cases hf : c.is_fakeout
    · rw [if_pos hf]
    · rw [if_neg hf]
      cases check_candle_against c (levels symbol "daily" "high")
          (levels symbol "daily" "low") with
      | none => rfl
      | some r =>
        obtain ⟨ft, lv⟩ := r
        rfl

theorem check_4h_alerts_nil (candles : String → String → List Candle)
    (levels : String → String → String → List ℚ) (symbol : String) :
    (check_4h_fakeouts candles levels symbol).alerts = [] := by
  unfold check_4h_fakeouts
  cases get_latest_candle (candles symbol "4h") with
  | none => rfl
  | some c =>
    dsimp only
    by_cases hf : c.is_fakeout
    · rw [if_pos hf]
    · rw [if_neg hf]
      cases check_candle_against c (levels symbol "weekly" "high")
          (levels symbol "weekly" "low") with
      | none => rfl
      | some r =>
        obtain ⟨ft, lv⟩ := r
        rfl

theorem check_daily_alerts_nil (candles : String → String → List Candle)
    (levels : String → String → String → List ℚ) (symbol : String) :
    (check_daily_fakeouts candles levels symbol).alerts = [] := by
  unfold check_daily_fakeouts
  cases get_latest_candle (candles symbol "1d") with
  | none => rfl
  | some c =>
    dsimp only
    by_cases hf : c.is_fakeout
    · rw [if_pos hf]
    · rw [if_neg hf]
      cases check_candle_against c (levels symbol "monthly" "high")
          (levels symbol "monthly" "low") with
      | none => rfl
      | some r =>
        obtain ⟨ft, lv⟩ := r
        rfl

/-- Candle store with one unannotated 1h fakeout candle for every symbol. -/
def cexCandleStore : String → String → List Candle := fun _ _ => [fakeoutCandle]

/-- Level store with a single daily high level at 100. -/
def cexLevelStore : String → String → String → List ℚ :=
  fun _ _ level_type => if level_type = "high" then [100] else []

/-- C6 counterexample: on a store where the newest 1h candle fakes out the
daily high level 100, the detector records the annotation and returns
true, but the list of alerts dispatched during the call is empty — no
Alert Sink invocation happens, refuting the claim that the detector
notifies on every match.  `send_fakeout_alert` exists but has no caller in
the detector. -/
theorem C6_alert_sink_counterexample :
    (check_hourly_fakeouts cexCandleStore cexLevelStore "btcusdt").flagged = true ∧
    (check_hourly_fakeouts cexCandleStore cexLevelStore "btcusdt").table =
      [⟨1, 100, 105, 199/2, 99, true, some "high", some 100⟩] ∧
    (check_hourly_fakeouts cexCandleStore cexLevelStore "btcusdt").alerts = [] := by
  refine ⟨rfl, rfl, rfl⟩

/-- C6 amended: on a match the detector records the annotation and returns
true, but it never invokes the Alert Sink — every branch of all three
check functions dispatches no alert; the alert payload builder
`send_fakeout_alert` packages exactly the match details and candle
snapshot, but nothing in the detector calls it. -/
theorem C6_alert_sink_amended :
    (∀ (candles : String → String → List Candle)
       (levels : String → String → String → List ℚ) (symbol : String),
      (check_hourly_fakeouts candles levels symbol).alerts = [] ∧
      (check_4h_fakeouts candles levels symbol).alerts = [] ∧
      (check_daily_fakeouts candles levels symbol).alerts = []) ∧
    (∀ (candles : String → String → List Candle)
       (levels : String → String → String → List ℚ) (symbol : String)
       (c : Candle) (ft : String) (lv : ℚ),
      get_latest_candle (candles symbol "1h") = some c → c.is_fakeout = false →
      check_candle_against c (levels symbol "daily" "high")
          (levels symbol "daily" "low") = some (ft, lv) →
        check_hourly_fakeouts candles levels symbol =
          ⟨true, mark_fakeout (candles symbol "1h") c.timestamp ft lv, [], []⟩) ∧
    (∀ (s tf ft : String) (lv : ℚ) (c : Candle),
      send_fakeout_alert s tf ft lv c =
        ⟨s, tf, ft, lv, c.high, c.low, c.close, c.timestamp⟩) := by
  refine ⟨fun candles levels symbol =>
    ⟨check_hourly_alerts_nil candles levels symbol,
     check_4h_alerts_nil candles levels symbol,
     check_daily_alerts_nil candles levels symbol⟩, ?_, fun s tf ft lv c => rfl⟩
  intro candles levels symbol c ft lv hlatest hfk hmatch
  unfold check_hourly_fakeouts
  rw [hlatest]
  dsimp only
  rw [if_neg (by rw [hfk]; exact Bool.false_ne_true), hmatch]

/-- Witness for C6 amended: the flagging branch evaluated on the concrete
counterexample store. -/
theorem C6_alert_sink_amended_witness :
    check_hourly_fakeouts cexCandleStore cexLevelStore "btcusdt" =
      ⟨true, mark_fakeout (cexCandleStore "btcusdt" "1h") fakeoutCandle.timestamp
        "high" 100, [], []⟩ :=
  C6_alert_sink_amended.2.1 cexCandleStore cexLevelStore "btcusdt" fakeoutCandle
    "high" 100 rfl rfl (by decide)

/-- C7 counterexample: the claimed bucket map contains `5m → daily`, but
`method_map` has no entry for `5m` — the lookup returns none and
`check_all_symbols` raises `ValueError` for it, so the constant lookup
does not support all four lower timeframes. -/
theorem C7_bucket_map_counterexample :
    method_map "5m" = none ∧
    check_all_symbols (fun _ _ => []) (fun _ _ _ => []) "5m" =
      .error ("Invalid timeframe: " ++ "5m") := by
  refine ⟨rfl, rfl⟩

/-- C7 amended: the constant lookup supports exactly three lower
timeframes — `{1h → daily, 4h → weekly, 1d → monthly}` — and each check
function reads only the levels of its mapped bucket (its result is
unchanged whenever two level stores agree on that bucket); `5m` candles
are inserted but never fakeout-checked, and looking `5m` up fails. -/
theorem C7_bucket_map_amended :
    method_map "1h" = some check_hourly_fakeouts ∧
    method_map "4h" = some check_4h_fakeouts ∧
    method_map "1d" = some check_daily_fakeouts ∧
    method_map "5m" = none ∧
    (∀ (candles : String → String → List Candle)
       (levels levels' : String → String → String → List ℚ) (symbol : String),
      (∀ t, levels symbol "daily" t = levels' symbol "daily" t) →
        check_hourly_fakeouts candles levels symbol =
          check_hourly_fakeouts candles levels' symbol) ∧
    (∀ (candles : String → String → List Candle)
       (levels levels' : String → String → String → List ℚ) (symbol : String),
      (∀ t, levels symbol "weekly" t = levels' symbol "weekly" t) →
        check_4h_fakeouts candles levels symbol =
          check_4h_fakeouts candles levels' symbol) ∧
    (∀ (candles : String → String → List Candle)
       (levels levels' : String → String → String → List ℚ) (symbol : String),
      (∀ t, levels symbol "monthly" t = levels' symbol "monthly" t) →
        check_daily_fakeouts candles levels symbol =
          check_daily_fakeouts candles levels' symbol) := by
  refine ⟨rfl, rfl, rfl, rfl, ?_, ?_, ?_⟩
  · intro candles levels levels' symbol h
    unfold check_hourly_fakeouts
    rw [h "high", h "low"]
  · intro candles levels levels' symbol h
    unfold check_4h_fakeouts
    rw [h "high", h "low"]
  · intro candles levels levels' symbol h
    unfold check_daily_fakeouts
    rw [h "high", h "low"]

/-- Witness for C7 amended: the daily-bucket insensitivity applied to two
concrete level stores that agree on the daily bucket. -/
theorem C7_bucket_map_amended_witness :
    check_hourly_fakeouts cexCandleStore cexLevelStore "btcusdt" =
      check_hourly_fakeouts cexCandleStore
        (fun s b t => if b = "weekly" then [7] else cexLevelStore s b t)
        "btcusdt" :=
  C7_bucket_map_amended.2.2.2.2.1 cexCandleStore cexLevelStore
    (fun s b t => if b = "weekly" then [7] else cexLevelStore s b t)
    "btcusdt" (fun _ => rfl)

/-- C8: `check_hourly_fakeouts`, `check_4h_fakeouts` and
`check_daily_fakeouts` return false without touching the candle table in
the two guard cases — no candle at all for the (symbol, timeframe), which
additionally logs the "no data" warning (absent from every other branch),
and a newest candle whose annotation is already set, which leaves the
annotation unchanged and records nothing. -/
theorem C8_no_data_and_already_flagged :
    ∀ (candles : String → String → List Candle)
      (levels : String → String → String → List ℚ) (symbol : String),
      (get_latest_candle (candles symbol "1h") = none →
        check_hourly_fakeouts candles levels symbol =
          ⟨false, candles symbol "1h", [],
           ["No 1h candle found for " ++ symbol]⟩) ∧
      (∀ c, get_latest_candle (candles symbol "1h") = some c →
        c.is_fakeout = true →
          check_hourly_fakeouts candles levels symbol =
            ⟨false, candles symbol "1h", [], []⟩) ∧
      (get_latest_candle (candles symbol "4h") = none →
        check_4h_fakeouts candles levels symbol =
          ⟨false, candles symbol "4h", [],
           ["No 4h candle found for " ++ symbol]⟩) ∧
      (∀ c, get_latest_candle (candles symbol "4h") = some c →
        c.is_fakeout = true →
          check_4h_fakeouts candles levels symbol =
            ⟨false, candles symbol "4h", [], []⟩) ∧
      (get_latest_candle (candles symbol "1d") = none →
        check_daily_fakeouts candles levels symbol =
          ⟨false, candles symbol "1d", [],
           ["No daily candle found for " ++ symbol]⟩) ∧
      (∀ c, get_latest_candle (candles symbol "1d") = some c →
        c.is_fakeout = true →
          check_daily_fakeouts candles levels symbol =
            ⟨false, candles symbol "1d", [], []⟩) := by
  intro candles levels symbol
  refine ⟨?_, ?_, ?_, ?_, ?_, ?_⟩
  · intro h
    unfold check_hourly_fakeouts
    rw [h]
  · intro c h hfk
    unfold check_hourly_fakeouts
    rw [h]
    dsimp only
    rw [if_pos hfk]
  · intro h
    unfold check_4h_fakeouts
    rw [h]
  · intro c h hfk
    unfold check_4h_fakeouts
    rw [h]
    dsimp only
    rw [if_pos hfk]
  · intro h
    unfold check_daily_fakeouts
    rw [h]
  · intro c h hfk
    unfold check_daily_fakeouts
    rw [h]
    dsimp only
    rw [if_pos hfk]

/-- Witness for C8: the no-data case on an empty candle store and the
already-flagged case on a store holding only an annotated candle. -/
theorem C8_no_data_and_already_flagged_witness :
    check_hourly_fakeouts (fun _ _ => []) cexLevelStore "btcusdt" =
      ⟨false, [], [], ["No 1h candle found for " ++ "btcusdt"]⟩ ∧
    check_hourly_fakeouts (fun _ _ => [annotatedCandle]) cexLevelStore "btcusdt" =
      ⟨false, [annotatedCandle], [], []⟩ :=
  ⟨(C8_no_data_and_already_flagged (fun _ _ => []) cexLevelStore "btcusdt").1 rfl,
   (C8_no_data_and_already_flagged (fun _ _ => [annotatedCandle]) cexLevelStore
      "btcusdt").2.1 annotatedCandle rfl rfl⟩
